import Mathlib

/-!
Verification of the N-body gravitational integrator and its bounded
trajectory-history (trail) buffer from the Three_Body_Problem repository
(src/script.js), shallowly embedded over the real numbers.

The embedding follows the source:
- THREE.Vector3 becomes the structure Vec3 over the reals, with the vector
  operations the script uses (subVectors, lengthSq, normalize, divideScalar,
  multiplyScalar, add).
- A simulated body (the object literal pushed in createBodiesFromControls)
  becomes the structure Body: position, velocity, mass, and the trail state
  (trailPoints / trailIndex / trailPointsCount), where the Float32Array of
  3 * default_trail_length floats is modelled as a map from slot number to
  the Vec3 stored at that slot.
- updatePhysics becomes a function on lists of bodies: first the sequential
  in-place velocity loop (a fold over the index range, reading the current,
  partially updated list exactly as the JS loop reads the mutated array),
  then the forEach that advances each position and appends it to the trail.
- The mass control-field handling of createBodiesFromControls, namely
  parseFloat(...) || default_mass, is modelled by JsNum (a parsed JS number:
  NaN or a real) and jsOr (the JS || operator on a parsed number, whose
  falsy numeric values are NaN and 0).
-/

set_option linter.unusedVariables false
set_option linter.unreachableTactic false
set_option linter.unusedTactic false
set_option linter.unnecessarySeqFocus false

noncomputable section

/-- Three-dimensional real vector, modelling THREE.Vector3. -/
@[ext]
structure Vec3 where
  x : ℝ
  y : ℝ
  z : ℝ

namespace Vec3

/-- Componentwise addition (THREE.Vector3.add). -/
def add (v w : Vec3) : Vec3 := ⟨v.x + w.x, v.y + w.y, v.z + w.z⟩

/-- Componentwise subtraction (THREE.Vector3.subVectors b a = b - a). -/
def sub (v w : Vec3) : Vec3 := ⟨v.x - w.x, v.y - w.y, v.z - w.z⟩

/-- Scalar multiplication (THREE.Vector3.multiplyScalar). -/
def smul (v : Vec3) (s : ℝ) : Vec3 := ⟨v.x * s, v.y * s, v.z * s⟩

/-- Scalar division (THREE.Vector3.divideScalar). -/
def divScalar (v : Vec3) (s : ℝ) : Vec3 := ⟨v.x / s, v.y / s, v.z / s⟩

/-- Squared euclidean length (THREE.Vector3.lengthSq). -/
def lengthSq (v : Vec3) : ℝ := v.x * v.x + v.y * v.y + v.z * v.z

/-- Euclidean length (THREE.Vector3.length). -/
def length (v : Vec3) : ℝ := Real.sqrt v.lengthSq

/-- Normalization (THREE.Vector3.normalize): divideScalar(length() || 1);
the JS || substitutes 1 when the length is 0 (falsy). -/
def normalize (v : Vec3) : Vec3 :=
  v.divScalar (if v.length = 0 then 1 else v.length)

instance : Zero Vec3 := ⟨⟨0, 0, 0⟩⟩

instance : Add Vec3 := ⟨add⟩

instance : Neg Vec3 := ⟨fun v => ⟨-v.x, -v.y, -v.z⟩⟩

instance : AddCommMonoid Vec3 where
  add_assoc := by
    intro a b c
    show add (add a b) c = add a (add b c)
    simp [add, add_assoc]
  zero_add := by
    intro a
    show add ⟨0, 0, 0⟩ a = a
    simp [add]
  add_zero := by
    intro a
    show add a ⟨0, 0, 0⟩ = a
    simp [add]
  add_comm := by
    intro a b
    show add a b = add b a
    simp [add, add_comm]
  nsmul := nsmulRec

/-- Projection to the x component as an additive monoid homomorphism. -/
def xHom : Vec3 →+ ℝ := { toFun := Vec3.x, map_zero' := rfl, map_add' := fun _ _ => rfl }

/-- Projection to the y component as an additive monoid homomorphism. -/
def yHom : Vec3 →+ ℝ := { toFun := Vec3.y, map_zero' := rfl, map_add' := fun _ _ => rfl }

/-- Projection to the z component as an additive monoid homomorphism. -/
def zHom : Vec3 →+ ℝ := { toFun := Vec3.z, map_zero' := rfl, map_add' := fun _ _ => rfl }

end Vec3

/-- Trail capacity: const default_trail_length = 800 in src/script.js. -/
def default_trail_length : ℕ := 800

/-- The circular trail state carried by each body in createBodiesFromControls:
trailPoints (the Float32Array of default_trail_length slots, modelled as the map
from slot number to stored point), trailIndex (next slot to write) and
trailPointsCount (number of valid points). Generic in the stored point type. -/
structure TrailBuffer (α : Type) where
  points : ℕ → α
  trailIndex : ℕ
  trailPointsCount : ℕ

namespace TrailBuffer

/-- A freshly created trail state, as built in createBodiesFromControls:
a zero-initialized Float32Array, trailIndex = 0, trailPointsCount = 0. -/
def fresh {α : Type} (z : α) : TrailBuffer α :=
  { points := fun _ => z, trailIndex := 0, trailPointsCount := 0 }

/-- One trail update from updatePhysics (lines 150 to 157): store the new point
at trailIndex, advance trailIndex modulo default_trail_length, and increment
trailPointsCount while it is below default_trail_length. -/
def append {α : Type} (buf : TrailBuffer α) (p : α) : TrailBuffer α :=
  { points := Function.update buf.points buf.trailIndex p
    trailIndex := (buf.trailIndex + 1) % default_trail_length
    trailPointsCount :=
      if buf.trailPointsCount < default_trail_length then
        buf.trailPointsCount + 1
      else buf.trailPointsCount }

/-- The trail reader (updatePhysics lines 163 to 173): the chronological list of
valid points copied to the display buffer. Slot k of the output reads source
slot (trailIndex + k) % default_trail_length when the buffer is full, and
source slot k otherwise. -/
def read {α : Type} (buf : TrailBuffer α) : List α :=
  (List.range buf.trailPointsCount).map (fun k =>
    buf.points
      (if buf.trailPointsCount = default_trail_length then
        (buf.trailIndex + k) % default_trail_length
      else k))

/-- Fold a sequence of appended points into a buffer: the buffer state after
appending ps 0, ps 1, ..., ps (n-1) in order. -/
def appendSeq {α : Type} (buf : TrailBuffer α) (ps : ℕ → α) (n : ℕ) : TrailBuffer α :=
  (List.range n).foldl (fun b t => b.append (ps t)) buf

end TrailBuffer

/-- A simulated body: the object literal pushed onto the bodies array in
createBodiesFromControls. The mesh is rendering plumbing; its position (the
authoritative physical position read and written by updatePhysics) is kept. -/
structure Body where
  position : Vec3
  velocity : Vec3
  mass : ℝ
  trail : TrailBuffer Vec3

instance : Inhabited Body :=
  ⟨{ position := 0, velocity := 0, mass := 0, trail := TrailBuffer.fresh 0 }⟩

/-- The kinematic data of a body read by the force computation: its position
and its mass. -/
def kin (b : Body) : Vec3 × ℝ := (b.position, b.mass)

/-- Gravitational constant: const G = 9.8 in src/script.js. -/
def Gconst : ℝ := 9.8

/-- Time step: const dt = 0.1 in updatePhysics. -/
def dtConst : ℝ := 0.1

/-- Default mass: const default_mass = 300 in src/script.js. -/
def default_mass : ℝ := 300

/-- The force contribution of body b on body a in the inner loop of
updatePhysics (lines 130 to 136): diff = position(b) - position(a),
distanceSq = |diff|^2; if distanceSq < 1 the pair is skipped (zero
contribution); otherwise the contribution is
normalize(diff) * (G * mass(a) * mass(b) / distanceSq). -/
def pairForce (g : ℝ) (a b : Body) : Vec3 :=
  let diff := b.position.sub a.position
  let distanceSq := diff.lengthSq
  if distanceSq < 1 then 0
  else (diff.normalize).smul (g * a.mass * b.mass / distanceSq)

/-- One iteration of the inner j-loop of updatePhysics: skip j = i, otherwise
add the pair force of bs[j] on a to the accumulator. -/
def forceAccum (g : ℝ) (bs : List Body) (i : ℕ) (a : Body)
    (acc : Vec3) (j : ℕ) : Vec3 :=
  if i = j then acc
  else
    match bs[j]? with
    | some b => acc + pairForce g a b
    | none => acc

/-- The totalForce accumulated for the body at index i (named a) by the inner
j-loop of updatePhysics over the current bodies list bs, skipping j = i. -/
def totalForce (g : ℝ) (bs : List Body) (i : ℕ) (a : Body) : Vec3 :=
  (List.range bs.length).foldl (forceAccum g bs i a) 0

/-- The velocity update applied to the body at index i by updatePhysics
(lines 139 to 141): velocity += (totalForce / mass) * dt, the force being
taken over the list bs. -/
def updVel (g dtv : ℝ) (bs : List Body) (i : ℕ) (a : Body) : Body :=
  { a with velocity := a.velocity + ((totalForce g bs i a).divScalar a.mass).smul dtv }

/-- One iteration of the outer force loop of updatePhysics: update the velocity
of the body at index i in place, using the current (partially updated) list. -/
def forceStep (g dtv : ℝ) (bs : List Body) (i : ℕ) : List Body :=
  match bs[i]? with
  | some a => bs.set i (updVel g dtv bs i a)
  | none => bs

/-- The full velocity phase of updatePhysics (lines 122 to 142): the outer
i-loop over all body indices, mutating velocities in place. -/
def velocityPhase (g dtv : ℝ) (bodies : List Body) : List Body :=
  (List.range bodies.length).foldl (forceStep g dtv) bodies

/-- The per-body position-and-trail update of updatePhysics (lines 145 to 157):
position += velocity * dt, then append the new position to the trail. -/
def moveBody (dtv : ℝ) (b : Body) : Body :=
  let newPos := b.position + b.velocity.smul dtv
  { b with position := newPos, trail := b.trail.append newPos }

/-- One full physics step: the velocity phase followed by the forEach that
advances every position and records it in the trail (updatePhysics). -/
def updatePhysics (g dtv : ℝ) (bodies : List Body) : List Body :=
  (velocityPhase g dtv bodies).map (moveBody dtv)

/-- k consecutive calls of updatePhysics (k animation frames). -/
def stepN (g dtv : ℝ) : ℕ → List Body → List Body
  | 0, bodies => bodies
  | k + 1, bodies => updatePhysics g dtv (stepN g dtv k bodies)

/-- Total system momentum: the sum over the bodies of velocity * mass. -/
def momentum (bodies : List Body) : Vec3 :=
  (bodies.map (fun b => b.velocity.smul b.mass)).sum

/-- The total force on the body at index i written as the specification states
it: the sum over every other index j of the term
(G * mass(a) * mass(b) / distanceSq) * ((position(b) - position(a)) / |diff|),
restricted to the pairs with distanceSq at least 1. -/
def specForceSum (g : ℝ) (bs : List Body) (i : ℕ) (a : Body) : Vec3 :=
  ∑ j ∈ Finset.range bs.length,
    if j = i then 0
    else
      match bs[j]? with
      | some b =>
        if 1 ≤ (b.position.sub a.position).lengthSq then
          ((b.position.sub a.position).divScalar
              (Real.sqrt (b.position.sub a.position).lengthSq)).smul
            (g * a.mass * b.mass / (b.position.sub a.position).lengthSq)
        else 0
      | none => 0

/-- A parsed JS number, the result of parseFloat on a control field: NaN when
the field does not parse, otherwise a real value. -/
inductive JsNum where
  | nan : JsNum
  | num : ℝ → JsNum

/-- The JS expression (v || d) for a parsed number v: NaN and 0 are falsy and
give the default d; every other value (negative values included) is kept. -/
def jsOr (v : JsNum) (d : ℝ) : ℝ :=
  match v with
  | .nan => d
  | .num q => if q = 0 then d else q

/-- The parsed control-field values for one body in createBodiesFromControls. -/
structure ControlsRow where
  posX : JsNum
  posY : JsNum
  posZ : JsNum
  velX : JsNum
  velY : JsNum
  velZ : JsNum
  mass : JsNum

/-- The randomized fallback values createBodiesFromControls computes for one
body (randomOffset and dir * randomSpeed draws), supplied as parameters. -/
structure RandomDefaults where
  posX : ℝ
  posY : ℝ
  posZ : ℝ
  velX : ℝ
  velY : ℝ
  velZ : ℝ

/-- Construction of one body in createBodiesFromControls (lines 77 to 114):
each field is the parsed control value with its fallback under the JS ||
operator; the mass fallback is default_mass; the trail state is fresh. -/
def createBody (c : ControlsRow) (d : RandomDefaults) : Body :=
  { position := ⟨jsOr c.posX d.posX, jsOr c.posY d.posY, jsOr c.posZ d.posZ⟩
    velocity := ⟨jsOr c.velX d.velX, jsOr c.velY d.velY, jsOr c.velZ d.velZ⟩
    mass := jsOr c.mass default_mass
    trail := TrailBuffer.fresh 0 }

/-- createBodiesFromControls: the loop for i = 1..3 replaces the bodies array
with three bodies built from the three control rows and their fallbacks. -/
def createBodiesFromControls
    (c1 c2 c3 : ControlsRow) (d1 d2 d3 : RandomDefaults) : List Body :=
  [createBody c1 d1, createBody c2 d2, createBody c3 d3]

/-- The left body of the two-body scenario in the spec: mass 300 at
(-50, 0, 0), zero velocity, fresh trail. -/
def bodyA : Body :=
  { position := ⟨-50, 0, 0⟩, velocity := 0, mass := 300, trail := TrailBuffer.fresh 0 }

/-- The right body of the two-body scenario: mass 300 at (50, 0, 0),
zero velocity, fresh trail. -/
def bodyB : Body :=
  { position := ⟨50, 0, 0⟩, velocity := 0, mass := 300, trail := TrailBuffer.fresh 0 }

/-- A third sample body: mass 300 at (0, 50, 0), zero velocity, fresh trail. -/
def bodyC : Body :=
  { position := ⟨0, 50, 0⟩, velocity := 0, mass := 300, trail := TrailBuffer.fresh 0 }

/-- A sample parsed control row in which every field parses. -/
def sampleControls : ControlsRow :=
  { posX := .num (-50), posY := .num 0, posZ := .num 0
    velX := .num 0, velY := .num 0, velZ := .num 0, mass := .num 300 }

/-- A control row whose mass field parses to the negative number -5. -/
def negControls : ControlsRow :=
  { posX := .num 1, posY := .num 2, posZ := .num 3
    velX := .num 0, velY := .num 0, velZ := .num 0, mass := .num (-5) }

/-- Sample randomized fallback values. -/
def sampleDefaults : RandomDefaults :=
  { posX := 0, posY := 0, posZ := 0, velX := 0, velY := 0, velZ := 0 }

end

/-! ## Basic component lemmas -/

@[simp] theorem Vec3.add_x (v w : Vec3) : (v + w).x = v.x + w.x := rfl

@[simp] theorem Vec3.add_y (v w : Vec3) : (v + w).y = v.y + w.y := rfl

@[simp] theorem Vec3.add_z (v w : Vec3) : (v + w).z = v.z + w.z := rfl

@[simp] theorem Vec3.zero_x : (0 : Vec3).x = 0 := rfl

@[simp] theorem Vec3.zero_y : (0 : Vec3).y = 0 := rfl

@[simp] theorem Vec3.zero_z : (0 : Vec3).z = 0 := rfl

@[simp] theorem Vec3.neg_x (v : Vec3) : (-v).x = -v.x := rfl

@[simp] theorem Vec3.neg_y (v : Vec3) : (-v).y = -v.y := rfl

@[simp] theorem Vec3.neg_z (v : Vec3) : (-v).z = -v.z := rfl

@[simp] theorem Vec3.sub_x (v w : Vec3) : (v.sub w).x = v.x - w.x := rfl

@[simp] theorem Vec3.sub_y (v w : Vec3) : (v.sub w).y = v.y - w.y := rfl

@[simp] theorem Vec3.sub_z (v w : Vec3) : (v.sub w).z = v.z - w.z := rfl

@[simp] theorem Vec3.smul_x (v : Vec3) (s : ℝ) : (v.smul s).x = v.x * s := rfl

@[simp] theorem Vec3.smul_y (v : Vec3) (s : ℝ) : (v.smul s).y = v.y * s := rfl

@[simp] theorem Vec3.smul_z (v : Vec3) (s : ℝ) : (v.smul s).z = v.z * s := rfl

@[simp] theorem Vec3.divScalar_x (v : Vec3) (s : ℝ) : (v.divScalar s).x = v.x / s := rfl

@[simp] theorem Vec3.divScalar_y (v : Vec3) (s : ℝ) : (v.divScalar s).y = v.y / s := rfl

@[simp] theorem Vec3.divScalar_z (v : Vec3) (s : ℝ) : (v.divScalar s).z = v.z / s := rfl

theorem Vec3.lengthSq_sub_comm (v w : Vec3) : (v.sub w).lengthSq = (w.sub v).lengthSq := by
  simp only [lengthSq, sub_x, sub_y, sub_z]
  ring

/-! ## The velocity phase computes forces from the start-of-step snapshot -/

theorem kin_updVel (g dtv : ℝ) (bs : List Body) (i : ℕ) (a : Body) :
    kin (updVel g dtv bs i a) = kin a := rfl

theorem pairForce_congr (g : ℝ) {a a' b b' : Body}
    (ha : kin a = kin a') (hb : kin b = kin b') :
    pairForce g a b = pairForce g a' b' := by
  have ha1 : a.position = a'.position := congrArg Prod.fst ha
  have ha2 : a.mass = a'.mass := congrArg Prod.snd ha
  have hb1 : b.position = b'.position := congrArg Prod.fst hb
  have hb2 : b.mass = b'.mass := congrArg Prod.snd hb
  simp only [pairForce, ha1, ha2, hb1, hb2]

theorem foldForce_congr (g : ℝ) (bs bs' : List Body) (i : ℕ) (a a' : Body)
    (h : ∀ j : ℕ, (bs[j]?).map kin = (bs'[j]?).map kin) (ha : kin a = kin a') :
    ∀ (l : List ℕ) (acc : Vec3),
      l.foldl (forceAccum g bs i a) acc = l.foldl (forceAccum g bs' i a') acc := by
  intro l
  induction l with
  | nil => intro acc; rfl
  | cons j l ih =>
    intro acc
    simp only [List.foldl_cons]
    have hstep : forceAccum g bs i a acc j = forceAccum g bs' i a' acc j := by
      by_cases hij : i = j
      · simp [forceAccum, hij]
      · simp only [forceAccum, if_neg hij]
        have hj := h j
        cases hb : bs[j]? with
        | none =>
          cases hb' : bs'[j]? with
          | none => rfl
          | some b' => rw [hb, hb'] at hj; simp at hj
        | some b =>
          cases hb' : bs'[j]? with
          | none => rw [hb, hb'] at hj; simp at hj
          | some b' =>
            rw [hb, hb'] at hj
            simp only [Option.map_some'] at hj
            show acc + pairForce g a b = acc + pairForce g a' b'
            rw [pairForce_congr g ha (Option.some.inj hj)]
    rw [hstep]
    exact ih _

theorem totalForce_congr (g : ℝ) {bs bs' : List Body} {i : ℕ} {a a' : Body}
    (hlen : bs.length = bs'.length)
    (h : ∀ j : ℕ, (bs[j]?).map kin = (bs'[j]?).map kin) (ha : kin a = kin a') :
    totalForce g bs i a = totalForce g bs' i a' := by
  unfold totalForce
  rw [hlen]
  exact foldForce_congr g bs bs' i a a' h ha _ 0

theorem velocityPhase_aux (g dtv : ℝ) (bodies : List Body) (k : ℕ) :
    ((List.range k).foldl (forceStep g dtv) bodies).length = bodies.length ∧
      ∀ j : ℕ, ((List.range k).foldl (forceStep g dtv) bodies)[j]?
        = if j < k then (bodies[j]?).map (updVel g dtv bodies j) else bodies[j]? := by
  induction k with
  | zero => simp
  | succ k ih =>
    obtain ⟨ihlen, ihget⟩ := ih
    rw [List.range_succ, List.foldl_append, List.foldl_cons, List.foldl_nil]
    set bs : List Body := (List.range k).foldl (forceStep g dtv) bodies with hbs
    have hkin : ∀ j : ℕ, (bs[j]?).map kin = (bodies[j]?).map kin := by
      intro j
      rw [ihget j]
      by_cases hj : j < k
      · rw [if_pos hj]
        cases bodies[j]? <;> simp [kin_updVel]
      · rw [if_neg hj]
    cases hk : bodies[k]? with
    | none =>
      have hbk : bs[k]? = none := by
        rw [ihget k, if_neg (lt_irrefl k), hk]
      have hfs : forceStep g dtv bs k = bs := by
        simp [forceStep, hbk]
      rw [hfs]
      refine ⟨ihlen, fun j => ?_⟩
      rw [ihget j]
      by_cases hj : j < k
      · rw [if_pos hj, if_pos (Nat.lt_succ_of_lt hj)]
      · rw [if_neg hj]
        by_cases hj1 : j < k + 1
        · have hjk : j = k := by omega
          subst hjk
          rw [if_pos hj1, hk]
          rfl
        · rw [if_neg hj1]
    | some a =>
      have hklen : k < bodies.length := by
        by_contra hge
        rw [List.getElem?_eq_none (by omega)] at hk
        exact Option.noConfusion hk
      have hbk : bs[k]? = some a := by
        rw [ihget k, if_neg (lt_irrefl k), hk]
      have hforce : totalForce g bs k a = totalForce g bodies k a :=
        totalForce_congr g ihlen hkin rfl
      have hfs : forceStep g dtv bs k = bs.set k (updVel g dtv bodies k a) := by
        simp only [forceStep, hbk]
        rw [show updVel g dtv bs k a = updVel g dtv bodies k a by
          simp only [updVel, hforce]]
      rw [hfs]
      refine ⟨by rw [List.length_set, ihlen], fun j => ?_⟩
      by_cases hjk : j = k
      · subst hjk
        rw [List.getElem?_set_self (by rw [ihlen]; exact hklen),
          if_pos (Nat.lt_succ_self j), hk]
        rfl
      · rw [List.getElem?_set_ne (fun hh => hjk hh.symm), ihget j]
        by_cases hj : j < k
        · rw [if_pos hj, if_pos (Nat.lt_succ_of_lt hj)]
        · rw [if_neg hj, if_neg (by omega)]

theorem velocityPhase_length (g dtv : ℝ) (bodies : List Body) :
    (velocityPhase g dtv bodies).length = bodies.length :=
  (velocityPhase_aux g dtv bodies bodies.length).1

theorem velocityPhase_getElem (g dtv : ℝ) (bodies : List Body) (j : ℕ) :
    (velocityPhase g dtv bodies)[j]? = (bodies[j]?).map (updVel g dtv bodies j) := by
  rw [show velocityPhase g dtv bodies
      = (List.range bodies.length).foldl (forceStep g dtv) bodies from rfl,
    (velocityPhase_aux g dtv bodies bodies.length).2 j]
  by_cases hj : j < bodies.length
  · rw [if_pos hj]
  · rw [if_neg hj, List.getElem?_eq_none (by omega)]
    rfl

theorem updatePhysics_length (g dtv : ℝ) (bodies : List Body) :
    (updatePhysics g dtv bodies).length = bodies.length := by
  rw [updatePhysics, List.length_map, velocityPhase_length]

theorem updatePhysics_getElem (g dtv : ℝ) (bodies : List Body) (j : ℕ) :
    (updatePhysics g dtv bodies)[j]?
      = (bodies[j]?).map (fun a => moveBody dtv (updVel g dtv bodies j a)) := by
  rw [updatePhysics, List.getElem?_map, velocityPhase_getElem, Option.map_map]
  rfl

/-! ## The accumulated force as a sum, and its antisymmetry -/

theorem foldl_forceAccum_eq_sum (g : ℝ) (bs : List Body) (i : ℕ) (a : Body) :
    ∀ (l : List ℕ) (acc : Vec3),
      l.foldl (forceAccum g bs i a) acc
        = acc + (l.map (fun j =>
            if i = j then 0
            else
              match bs[j]? with
              | some b => pairForce g a b
              | none => 0)).sum := by
  intro l
  induction l with
  | nil => intro acc; simp
  | cons j l ih =>
    intro acc
    simp only [List.foldl_cons, List.map_cons, List.sum_cons]
    rw [ih]
    have : forceAccum g bs i a acc j
        = acc + (if i = j then 0
            else
              match bs[j]? with
              | some b => pairForce g a b
              | none => 0) := by
      by_cases hij : i = j
      · simp [forceAccum, hij]
      · simp only [forceAccum, if_neg hij]
        cases bs[j]? with
        | none => simp
        | some b => rfl
    rw [this, add_assoc]

theorem sum_map_range {M : Type} [AddCommMonoid M] (f : ℕ → M) (n : ℕ) :
    ((List.range n).map f).sum = ∑ j ∈ Finset.range n, f j := by
  induction n with
  | zero => simp
  | succ n ih =>
    rw [List.range_succ, List.map_append, List.sum_append, Finset.sum_range_succ, ih]
    simp

theorem totalForce_eq_sum (g : ℝ) (bs : List Body) (i : ℕ) (a : Body) :
    totalForce g bs i a
      = ∑ j ∈ Finset.range bs.length,
          (if i = j then 0
           else
             match bs[j]? with
             | some b => pairForce g a b
             | none => 0) := by
  rw [totalForce, foldl_forceAccum_eq_sum, sum_map_range, zero_add]

theorem Vec3.lengthSq_negOne_smul (v : Vec3) : (v.smul (-1)).lengthSq = v.lengthSq := by
  simp only [lengthSq, smul_x, smul_y, smul_z]
  ring

theorem Vec3.normalize_negOne_smul (v : Vec3) :
    (v.smul (-1)).normalize = v.normalize.smul (-1) := by
  unfold normalize length
  rw [lengthSq_negOne_smul]
  ext <;> simp <;> ring

theorem Vec3.neg_zero_eq : -(0 : Vec3) = 0 := by
  ext <;> simp

theorem pairForce_antisymm (g : ℝ) (a b : Body) :
    pairForce g b a = -(pairForce g a b) := by
  have hsub : a.position.sub b.position = (b.position.sub a.position).smul (-1) := by
    ext <;> simp <;> ring
  have hlen : (a.position.sub b.position).lengthSq = (b.position.sub a.position).lengthSq :=
    Vec3.lengthSq_sub_comm _ _
  simp only [pairForce]
  by_cases h : (b.position.sub a.position).lengthSq < 1
  · rw [if_pos (by rw [hlen]; exact h), if_pos h, Vec3.neg_zero_eq]
  · rw [if_neg (by rw [hlen]; exact h), if_neg h, hsub,
      Vec3.lengthSq_negOne_smul, Vec3.normalize_negOne_smul]
    ext <;>
      simp only [Vec3.smul_x, Vec3.smul_y, Vec3.smul_z,
        Vec3.neg_x, Vec3.neg_y, Vec3.neg_z] <;>
      ring

/-! ## Momentum conservation of the velocity phase -/

theorem Vec3.sum_x {β : Type} (s : Finset β) (F : β → Vec3) :
    (∑ j ∈ s, F j).x = ∑ j ∈ s, (F j).x :=
  map_sum Vec3.xHom F s

theorem Vec3.sum_y {β : Type} (s : Finset β) (F : β → Vec3) :
    (∑ j ∈ s, F j).y = ∑ j ∈ s, (F j).y :=
  map_sum Vec3.yHom F s

theorem Vec3.sum_z {β : Type} (s : Finset β) (F : β → Vec3) :
    (∑ j ∈ s, F j).z = ∑ j ∈ s, (F j).z :=
  map_sum Vec3.zHom F s

theorem Vec3.sum_smul {β : Type} (s : Finset β) (F : β → Vec3) (c : ℝ) :
    ∑ j ∈ s, (F j).smul c = (∑ j ∈ s, F j).smul c := by
  ext
  · rw [Vec3.sum_x, Vec3.smul_x, Vec3.sum_x, Finset.sum_mul]
    exact Finset.sum_congr rfl (fun j _ => rfl)
  · rw [Vec3.sum_y, Vec3.smul_y, Vec3.sum_y, Finset.sum_mul]
    exact Finset.sum_congr rfl (fun j _ => rfl)
  · rw [Vec3.sum_z, Vec3.smul_z, Vec3.sum_z, Finset.sum_mul]
    exact Finset.sum_congr rfl (fun j _ => rfl)

theorem real_double_sum_antisymm (n : ℕ) (f : ℕ → ℕ → ℝ)
    (hf : ∀ j k, f k j = -f j k) :
    ∑ j ∈ Finset.range n, ∑ k ∈ Finset.range n, f j k = 0 := by
  have hswap : ∑ j ∈ Finset.range n, ∑ k ∈ Finset.range n, f j k
      = ∑ j ∈ Finset.range n, ∑ k ∈ Finset.range n, f k j := Finset.sum_comm
  have hneg : ∑ j ∈ Finset.range n, ∑ k ∈ Finset.range n, f k j
      = -∑ j ∈ Finset.range n, ∑ k ∈ Finset.range n, f j k := by
    rw [← Finset.sum_neg_distrib]
    refine Finset.sum_congr rfl (fun j _ => ?_)
    rw [← Finset.sum_neg_distrib]
    exact Finset.sum_congr rfl (fun k _ => hf j k)
  have := hswap.trans hneg
  linarith

theorem vec_double_sum_antisymm (n : ℕ) (h : ℕ → ℕ → Vec3)
    (hanti : ∀ j k, h k j = -h j k) :
    ∑ j ∈ Finset.range n, ∑ k ∈ Finset.range n, h j k = 0 := by
  ext
  · rw [Vec3.sum_x, Vec3.zero_x,
      Finset.sum_congr rfl (fun j _ => Vec3.sum_x (Finset.range n) (h j))]
    exact real_double_sum_antisymm n (fun j k => (h j k).x)
      (fun j k => by show (h k j).x = -(h j k).x; rw [hanti j k, Vec3.neg_x])
  · rw [Vec3.sum_y, Vec3.zero_y,
      Finset.sum_congr rfl (fun j _ => Vec3.sum_y (Finset.range n) (h j))]
    exact real_double_sum_antisymm n (fun j k => (h j k).y)
      (fun j k => by show (h k j).y = -(h j k).y; rw [hanti j k, Vec3.neg_y])
  · rw [Vec3.sum_z, Vec3.zero_z,
      Finset.sum_congr rfl (fun j _ => Vec3.sum_z (Finset.range n) (h j))]
    exact real_double_sum_antisymm n (fun j k => (h j k).z)
      (fun j k => by show (h k j).z = -(h j k).z; rw [hanti j k, Vec3.neg_z])

theorem Vec3.zero_smul_eq (c : ℝ) : (0 : Vec3).smul c = 0 := by
  ext <;> simp

theorem list_map_sum_eq_range {β M : Type} [AddCommMonoid M] (l : List β) (f : β → M) :
    (l.map f).sum
      = ∑ j ∈ Finset.range l.length,
          (match l[j]? with
           | some b => f b
           | none => 0) := by
  induction l with
  | nil => simp
  | cons b l ih =>
    rw [List.map_cons, List.sum_cons, List.length_cons, Finset.sum_range_succ', ih]
    simp only [List.getElem?_cons_succ, List.getElem?_cons_zero]
    rw [add_comm]

theorem momentum_eq_range_sum (l : List Body) :
    momentum l = ∑ j ∈ Finset.range l.length,
      (match l[j]? with
       | some b => b.velocity.smul b.mass
       | none => 0) := by
  unfold momentum
  induction l with
  | nil => simp
  | cons b l ih =>
    rw [List.map_cons, List.sum_cons, List.length_cons, Finset.sum_range_succ', ih]
    simp only [List.getElem?_cons_succ, List.getElem?_cons_zero]
    rw [add_comm]

theorem momentum_velocityPhase (g dtv : ℝ) (bodies : List Body)
    (hm : ∀ b ∈ bodies, 0 < b.mass) :
    momentum (velocityPhase g dtv bodies) = momentum bodies := by
  rw [momentum_eq_range_sum, momentum_eq_range_sum bodies, velocityPhase_length]
  have hterm : ∀ j ∈ Finset.range bodies.length,
      (match (velocityPhase g dtv bodies)[j]? with
       | some b => b.velocity.smul b.mass
       | none => 0)
      = (match bodies[j]? with
         | some a => a.velocity.smul a.mass + (totalForce g bodies j a).smul dtv
         | none => 0) := by
    intro j hj
    rw [velocityPhase_getElem]
    cases hbj : bodies[j]? with
    | none => rfl
    | some a =>
      simp only [Option.map_some']
      have hmass : a.mass ≠ 0 := ne_of_gt (hm a (List.getElem?_mem hbj))
      show (a.velocity + ((totalForce g bodies j a).divScalar a.mass).smul dtv).smul a.mass
        = a.velocity.smul a.mass + (totalForce g bodies j a).smul dtv
      ext <;>
        simp only [Vec3.smul_x, Vec3.smul_y, Vec3.smul_z, Vec3.add_x, Vec3.add_y,
          Vec3.add_z, Vec3.divScalar_x, Vec3.divScalar_y, Vec3.divScalar_z] <;>
        field_simp <;>
        ring
  rw [Finset.sum_congr rfl hterm]
  have hsplit : ∑ j ∈ Finset.range bodies.length,
      (match bodies[j]? with
       | some a => a.velocity.smul a.mass + (totalForce g bodies j a).smul dtv
       | none => 0)
      = (∑ j ∈ Finset.range bodies.length,
          (match bodies[j]? with
           | some a => a.velocity.smul a.mass
           | none => 0))
        + ∑ j ∈ Finset.range bodies.length,
            (match bodies[j]? with
             | some a => (totalForce g bodies j a).smul dtv
             | none => 0) := by
    rw [← Finset.sum_add_distrib]
    refine Finset.sum_congr rfl (fun j _ => ?_)
    cases bodies[j]? with
    | none => simp
    | some a => rfl
  rw [hsplit]
  have hzero : ∑ j ∈ Finset.range bodies.length,
      (match bodies[j]? with
       | some a => (totalForce g bodies j a).smul dtv
       | none => 0) = 0 := by
    have h1 : ∀ j ∈ Finset.range bodies.length,
        (match bodies[j]? with
         | some a => (totalForce g bodies j a).smul dtv
         | none => 0)
        = (match bodies[j]? with
           | some a => totalForce g bodies j a
           | none => 0).smul dtv := by
      intro j _
      cases bodies[j]? with
      | none => rw [Vec3.zero_smul_eq]
      | some a => rfl
    rw [Finset.sum_congr rfl h1, Vec3.sum_smul]
    have h2 : ∑ j ∈ Finset.range bodies.length,
        (match bodies[j]? with
         | some a => totalForce g bodies j a
         | none => 0)
        = ∑ j ∈ Finset.range bodies.length, ∑ k ∈ Finset.range bodies.length,
            (if j = k then 0
             else
               match bodies[j]?, bodies[k]? with
               | some a, some b => pairForce g a b
               | _, _ => 0) := by
      refine Finset.sum_congr rfl (fun j _ => ?_)
      cases hbj : bodies[j]? with
      | none =>
        rw [eq_comm]
        refine Finset.sum_eq_zero (fun k _ => ?_)
        by_cases hjk : j = k
        · rw [if_pos hjk]
        · rw [if_neg hjk]
      | some a =>
        show totalForce g bodies j a = _
        rw [totalForce_eq_sum]
        refine Finset.sum_congr rfl (fun k _ => ?_)
        by_cases hjk : j = k
        · rw [if_pos hjk, if_pos hjk]
        · rw [if_neg hjk, if_neg hjk]
          cases bodies[k]? with
          | none => rfl
          | some b => rfl
    rw [h2, vec_double_sum_antisymm _ _ ?hanti, Vec3.zero_smul_eq]
    case hanti =>
      intro j k
      by_cases hjk : j = k
      · subst hjk
        rw [if_pos rfl, Vec3.neg_zero_eq]
      · rw [if_neg (fun hh => hjk hh.symm), if_neg hjk]
        cases hbj : bodies[j]? with
        | none =>
          cases hbk : bodies[k]? with
          | none => rw [Vec3.neg_zero_eq]
          | some b => rw [Vec3.neg_zero_eq]
        | some a =>
          cases hbk : bodies[k]? with
          | none => rw [Vec3.neg_zero_eq]
          | some b => exact pairForce_antisymm g a b
  rw [hzero, add_zero]

theorem momentum_map_moveBody (dtv : ℝ) (l : List Body) :
    momentum (l.map (moveBody dtv)) = momentum l := by
  unfold momentum
  rw [List.map_map]
  rfl

theorem momentum_updatePhysics (g dtv : ℝ) (bodies : List Body)
    (hm : ∀ b ∈ bodies, 0 < b.mass) :
    momentum (updatePhysics g dtv bodies) = momentum bodies := by
  rw [updatePhysics, momentum_map_moveBody, momentum_velocityPhase g dtv bodies hm]

/-! ## Trail buffer lemmas -/

namespace TrailBuffer

theorem appendSeq_zero {α : Type} (buf : TrailBuffer α) (ps : ℕ → α) :
    appendSeq buf ps 0 = buf := rfl

theorem appendSeq_succ {α : Type} (buf : TrailBuffer α) (ps : ℕ → α) (n : ℕ) :
    appendSeq buf ps (n + 1) = (appendSeq buf ps n).append (ps n) := by
  unfold appendSeq
  rw [List.range_succ, List.foldl_append, List.foldl_cons, List.foldl_nil]

theorem appendSeq_fresh_trailIndex {α : Type} (z : α) (ps : ℕ → α) (n : ℕ) :
    (appendSeq (fresh z) ps n).trailIndex = n % default_trail_length := by
  induction n with
  | zero => rfl
  | succ n ih =>
    rw [appendSeq_succ]
    show ((appendSeq (fresh z) ps n).trailIndex + 1) % default_trail_length = _
    rw [ih]
    simp only [default_trail_length]
    omega

theorem appendSeq_fresh_count {α : Type} (z : α) (ps : ℕ → α) (n : ℕ) :
    (appendSeq (fresh z) ps n).trailPointsCount = min n default_trail_length := by
  induction n with
  | zero => rfl
  | succ n ih =>
    rw [appendSeq_succ]
    show (if (appendSeq (fresh z) ps n).trailPointsCount < default_trail_length
      then (appendSeq (fresh z) ps n).trailPointsCount + 1
      else (appendSeq (fresh z) ps n).trailPointsCount) = _
    rw [ih]
    by_cases h : min n default_trail_length < default_trail_length
    · rw [if_pos h]; omega
    · rw [if_neg h]; omega

theorem appendSeq_fresh_points {α : Type} (z : α) (ps : ℕ → α) :
    ∀ n s, s < default_trail_length →
      (appendSeq (fresh z) ps n).points s
        = if s < min n default_trail_length then
            ps (s + default_trail_length * ((n - 1 - s) / default_trail_length))
          else z := by
  intro n
  induction n with
  | zero =>
    intro s hs
    rw [if_neg (by omega)]
    rfl
  | succ n ih =>
    intro s hs
    rw [appendSeq_succ]
    show Function.update (appendSeq (fresh z) ps n).points
      (appendSeq (fresh z) ps n).trailIndex (ps n) s = _
    rw [appendSeq_fresh_trailIndex, Function.update_apply]
    by_cases hsn : s = n % default_trail_length
    · rw [if_pos hsn, if_pos (by simp only [default_trail_length] at *; omega)]
      refine congrArg ps ?_
      simp only [default_trail_length] at *
      omega
    · rw [if_neg hsn, ih s hs]
      by_cases hlt : s < min n default_trail_length
      · rw [if_pos hlt, if_pos (by omega)]
        refine congrArg ps ?_
        simp only [default_trail_length] at *
        omega
      · rw [if_neg hlt, if_neg (by simp only [default_trail_length] at *; omega)]

theorem read_appendSeq_fresh {α : Type} (z : α) (ps : ℕ → α) (n : ℕ)
    (hn : n ≤ default_trail_length) :
    (appendSeq (fresh z) ps n).read = (List.range n).map ps := by
  unfold read
  rw [appendSeq_fresh_count, appendSeq_fresh_trailIndex,
    show min n default_trail_length = n by omega]
  refine List.map_congr_left (fun k hk => ?_)
  rw [List.mem_range] at hk
  by_cases hfull : n = default_trail_length
  · rw [if_pos hfull]
    rw [appendSeq_fresh_points z ps n _ (by simp only [default_trail_length] at *; omega)]
    rw [if_pos (by simp only [default_trail_length] at *; omega)]
    refine congrArg ps ?_
    subst hfull
    simp only [default_trail_length] at *
    omega
  · rw [if_neg hfull]
    rw [appendSeq_fresh_points z ps n k (by omega)]
    rw [if_pos (by omega)]
    refine congrArg ps ?_
    simp only [default_trail_length] at *
    omega

theorem read_appendSeq_fresh_full {α : Type} (z : α) (ps : ℕ → α) (m : ℕ) :
    (appendSeq (fresh z) ps (default_trail_length + m)).read
      = (List.range default_trail_length).map (fun j => ps (m + j)) := by
  unfold read
  rw [appendSeq_fresh_count, appendSeq_fresh_trailIndex,
    show min (default_trail_length + m) default_trail_length = default_trail_length by omega]
  refine List.map_congr_left (fun k hk => ?_)
  rw [List.mem_range] at hk
  rw [if_pos rfl]
  rw [appendSeq_fresh_points z ps _ _
    (by simp only [default_trail_length] at *; omega)]
  rw [if_pos (by simp only [default_trail_length] at *; omega)]
  refine congrArg ps ?_
  simp only [default_trail_length] at *
  omega

end TrailBuffer

/-! ## Trails along repeated physics steps -/

theorem stepN_length (g dtv : ℝ) (bodies : List Body) (k : ℕ) :
    (stepN g dtv k bodies).length = bodies.length := by
  induction k with
  | zero => rfl
  | succ k ih =>
    show (updatePhysics g dtv (stepN g dtv k bodies)).length = bodies.length
    rw [updatePhysics_length, ih]

theorem updatePhysics_getD (g dtv : ℝ) (bs : List Body) (i : ℕ) (hi : i < bs.length) :
    (updatePhysics g dtv bs).getD i default
      = moveBody dtv (updVel g dtv bs i (bs.getD i default)) := by
  have h := updatePhysics_getElem g dtv bs i
  rw [List.getD_eq_getElem?_getD, List.getD_eq_getElem?_getD, h,
    List.getElem?_eq_getElem hi]
  rfl

theorem stepN_trail (g dtv : ℝ) (bodies : List Body) (i : ℕ) (hi : i < bodies.length) :
    ∀ k, ((stepN g dtv k bodies).getD i default).trail
      = TrailBuffer.appendSeq ((bodies.getD i default).trail)
          (fun t => ((stepN g dtv (t + 1) bodies).getD i default).position) k := by
  intro k
  induction k with
  | zero => rfl
  | succ k ih =>
    rw [TrailBuffer.appendSeq_succ, ← ih]
    have hlen : i < (stepN g dtv k bodies).length := by rw [stepN_length]; exact hi
    show ((updatePhysics g dtv (stepN g dtv k bodies)).getD i default).trail
      = (((stepN g dtv k bodies).getD i default).trail).append
          (((updatePhysics g dtv (stepN g dtv k bodies)).getD i default).position)
    rw [updatePhysics_getD g dtv _ i hlen]
    rfl

/-! ## Two-body force evaluation and the spec formula -/

theorem totalForce_pair_left (g : ℝ) (a b : Body) :
    totalForce g [a, b] 0 a = pairForce g a b := by
  show (List.range 2).foldl (forceAccum g [a, b] 0 a) 0 = _
  rw [show List.range 2 = [0, 1] from rfl,
    List.foldl_cons, List.foldl_cons, List.foldl_nil]
  simp [forceAccum]

theorem totalForce_pair_right (g : ℝ) (a b : Body) :
    totalForce g [a, b] 1 b = pairForce g b a := by
  show (List.range 2).foldl (forceAccum g [a, b] 1 b) 0 = _
  rw [show List.range 2 = [0, 1] from rfl,
    List.foldl_cons, List.foldl_cons, List.foldl_nil]
  simp [forceAccum]

theorem pairForce_eq_spec_term (g : ℝ) (a b : Body) :
    pairForce g a b
      = (if 1 ≤ (b.position.sub a.position).lengthSq then
          ((b.position.sub a.position).divScalar
              (Real.sqrt (b.position.sub a.position).lengthSq)).smul
            (g * a.mass * b.mass / (b.position.sub a.position).lengthSq)
        else 0) := by
  simp only [pairForce]
  by_cases h : (b.position.sub a.position).lengthSq < 1
  · rw [if_pos h, if_neg (by linarith)]
  · rw [if_neg h, if_pos (by linarith)]
    unfold Vec3.normalize Vec3.length
    rw [if_neg (ne_of_gt (Real.sqrt_pos.mpr (by linarith)))]

theorem totalForce_eq_spec (g : ℝ) (bs : List Body) (i : ℕ) (a : Body) :
    totalForce g bs i a = specForceSum g bs i a := by
  rw [totalForce_eq_sum, specForceSum]
  refine Finset.sum_congr rfl (fun j _ => ?_)
  by_cases hij : i = j
  · rw [if_pos hij, if_pos hij.symm]
  · rw [if_neg hij, if_neg (fun hh => hij hh.symm)]
    cases hbj : bs[j]? with
    | none => rfl
    | some b =>
      show pairForce g a b = _
      rw [pairForce_eq_spec_term]

/-! ## Concrete evaluation of the spec two-body scenario -/

theorem sqrt_ten_thousand : Real.sqrt (10000 : ℝ) = 100 := by
  rw [show (10000 : ℝ) = 100 ^ 2 by norm_num,
    Real.sqrt_sq (by norm_num : (0 : ℝ) ≤ 100)]

theorem twoBody_diff : bodyB.position.sub bodyA.position = ⟨100, 0, 0⟩ := by
  ext <;> simp [bodyA, bodyB, Vec3.sub] <;> norm_num

theorem twoBody_diff_lengthSq : (Vec3.mk (100 : ℝ) 0 0).lengthSq = 10000 := by
  simp only [Vec3.lengthSq]
  norm_num

theorem twoBody_normalize : (Vec3.mk (100 : ℝ) 0 0).normalize = ⟨1, 0, 0⟩ := by
  simp only [Vec3.normalize, Vec3.length, twoBody_diff_lengthSq, sqrt_ten_thousand]
  rw [if_neg (by norm_num)]
  ext <;> simp [Vec3.divScalar] <;> norm_num

theorem twoBody_pairForce : pairForce Gconst bodyA bodyB = ⟨441 / 5, 0, 0⟩ := by
  simp only [pairForce, twoBody_diff, twoBody_diff_lengthSq]
  rw [if_neg (by norm_num), twoBody_normalize]
  ext <;> simp [bodyA, bodyB, Gconst, Vec3.smul] <;> norm_num

theorem twoBody_step_eval :
    (((updatePhysics Gconst dtConst [bodyA, bodyB]).getD 0 default).velocity
        = ⟨147 / 5000, 0, 0⟩)
    ∧ (((updatePhysics Gconst dtConst [bodyA, bodyB]).getD 1 default).velocity
        = ⟨-(147 / 5000), 0, 0⟩)
    ∧ (((updatePhysics Gconst dtConst [bodyA, bodyB]).getD 0 default).position
        = ⟨-50 + 147 / 50000, 0, 0⟩)
    ∧ (((updatePhysics Gconst dtConst [bodyA, bodyB]).getD 1 default).position
        = ⟨50 - 147 / 50000, 0, 0⟩) := by
  have h0 := updatePhysics_getD Gconst dtConst [bodyA, bodyB] 0 (by norm_num)
  have h1 := updatePhysics_getD Gconst dtConst [bodyA, bodyB] 1 (by norm_num)
  have hd0 : ([bodyA, bodyB] : List Body).getD 0 default = bodyA := rfl
  have hd1 : ([bodyA, bodyB] : List Body).getD 1 default = bodyB := rfl
  rw [hd0] at h0
  rw [hd1] at h1
  have hpfBA : pairForce Gconst bodyB bodyA = ⟨-(441 / 5), 0, 0⟩ := by
    rw [pairForce_antisymm, twoBody_pairForce]
    ext <;> simp
  have hvel0 : (updVel Gconst dtConst [bodyA, bodyB] 0 bodyA).velocity
      = ⟨147 / 5000, 0, 0⟩ := by
    show bodyA.velocity
        + ((totalForce Gconst [bodyA, bodyB] 0 bodyA).divScalar bodyA.mass).smul dtConst
      = _
    rw [totalForce_pair_left, twoBody_pairForce]
    ext <;> simp [bodyA, dtConst, Vec3.divScalar, Vec3.smul] <;> norm_num
  have hvel1 : (updVel Gconst dtConst [bodyA, bodyB] 1 bodyB).velocity
      = ⟨-(147 / 5000), 0, 0⟩ := by
    show bodyB.velocity
        + ((totalForce Gconst [bodyA, bodyB] 1 bodyB).divScalar bodyB.mass).smul dtConst
      = _
    rw [totalForce_pair_right, hpfBA]
    ext <;> simp [bodyB, dtConst, Vec3.divScalar, Vec3.smul] <;> norm_num
  refine ⟨?_, ?_, ?_, ?_⟩
  · rw [h0]
    show (updVel Gconst dtConst [bodyA, bodyB] 0 bodyA).velocity = _
    exact hvel0
  · rw [h1]
    show (updVel Gconst dtConst [bodyA, bodyB] 1 bodyB).velocity = _
    exact hvel1
  · rw [h0]
    show (updVel Gconst dtConst [bodyA, bodyB] 0 bodyA).position
        + ((updVel Gconst dtConst [bodyA, bodyB] 0 bodyA).velocity).smul dtConst = _
    rw [hvel0]
    show bodyA.position + (Vec3.mk (147 / 5000 : ℝ) 0 0).smul dtConst = _
    ext <;> simp [bodyA, dtConst, Vec3.smul] <;> norm_num
  · rw [h1]
    show (updVel Gconst dtConst [bodyA, bodyB] 1 bodyB).position
        + ((updVel Gconst dtConst [bodyA, bodyB] 1 bodyB).velocity).smul dtConst = _
    rw [hvel1]
    show bodyB.position + (Vec3.mk (-(147 / 5000) : ℝ) 0 0).smul dtConst = _
    ext <;> simp [bodyB, dtConst, Vec3.smul] <;> norm_num

/-! ## Claim theorems -/

/-- C1 counterexample: the claim says initialize raises an invalid-input error
when a mass is nonpositive and never constructs a body of nonpositive mass.
The code raises nothing: with a mass control parsing to -5,
createBodiesFromControls returns a body whose mass is -5, which is
nonpositive. -/
theorem C1_counterexample :
    ((createBodiesFromControls negControls sampleControls sampleControls
        sampleDefaults sampleDefaults sampleDefaults).getD 0 default).mass = -5
    ∧ ((-5 : ℝ) ≤ 0) := by
  constructor
  · show (if (-5 : ℝ) = 0 then default_mass else -5) = -5
    rw [if_neg (by norm_num)]
  · norm_num

/-- C1 amended: createBodiesFromControls raises no error and always returns
exactly three bodies; each mass is the parsed control under the JS || with
default 300: NaN and 0 become default_mass, every other parsed value
(negative values included) is used as-is. -/
theorem C1_amended (c1 c2 c3 : ControlsRow) (d1 d2 d3 : RandomDefaults) :
    (createBodiesFromControls c1 c2 c3 d1 d2 d3).length = 3
    ∧ ((createBodiesFromControls c1 c2 c3 d1 d2 d3).getD 0 default).mass
        = jsOr c1.mass default_mass
    ∧ ((createBodiesFromControls c1 c2 c3 d1 d2 d3).getD 1 default).mass
        = jsOr c2.mass default_mass
    ∧ ((createBodiesFromControls c1 c2 c3 d1 d2 d3).getD 2 default).mass
        = jsOr c3.mass default_mass
    ∧ (jsOr JsNum.nan default_mass = default_mass)
    ∧ (jsOr (JsNum.num 0) default_mass = default_mass)
    ∧ (∀ x : ℝ, x ≠ 0 → jsOr (JsNum.num x) default_mass = x) := by
  refine ⟨rfl, rfl, rfl, rfl, rfl, ?_, ?_⟩
  · show (if (0 : ℝ) = 0 then default_mass else 0) = default_mass
    rw [if_pos rfl]
  · intro x hx
    show (if x = 0 then default_mass else x) = x
    rw [if_neg hx]

/-- C1 witness: the amended claim applied to a concrete control row whose
mass parses to -5. -/
theorem C1_witness :
    ((-5 : ℝ) ≠ 0) ∧ jsOr (JsNum.num (-5)) default_mass = -5 :=
  ⟨by norm_num,
    (C1_amended negControls sampleControls sampleControls sampleDefaults
      sampleDefaults sampleDefaults).2.2.2.2.2.2 (-5) (by norm_num)⟩

/-- C2: for bodies with positive masses, one updatePhysics step gives every
body the velocity computed from totalForce over the start-of-step list (the
in-place loop reads only positions and masses, which the loop never changes),
and then sets its position to position + newVelocity * dt, using the
already-updated velocity (semi-implicit Euler ordering). -/
theorem C2_velocity_then_position (g dtv : ℝ) (bodies : List Body)
    (hm : ∀ b ∈ bodies, 0 < b.mass) (i : ℕ) (hi : i < bodies.length) :
    ((updatePhysics g dtv bodies).getD i default).velocity
        = (bodies.getD i default).velocity
          + ((totalForce g bodies i (bodies.getD i default)).divScalar
              (bodies.getD i default).mass).smul dtv
      ∧ ((updatePhysics g dtv bodies).getD i default).position
        = (bodies.getD i default).position
          + (((updatePhysics g dtv bodies).getD i default).velocity).smul dtv := by
  rw [updatePhysics_getD g dtv bodies i hi]
  exact ⟨rfl, rfl⟩

/-- C2 witness: the semi-implicit ordering at a concrete one-body state. -/
theorem C2_witness :
    (∀ b ∈ ([bodyA] : List Body), 0 < b.mass)
    ∧ 0 < ([bodyA] : List Body).length
    ∧ (((updatePhysics Gconst dtConst [bodyA]).getD 0 default).velocity
        = (([bodyA] : List Body).getD 0 default).velocity
          + ((totalForce Gconst [bodyA] 0
                (([bodyA] : List Body).getD 0 default)).divScalar
              (([bodyA] : List Body).getD 0 default).mass).smul dtConst
      ∧ ((updatePhysics Gconst dtConst [bodyA]).getD 0 default).position
        = (([bodyA] : List Body).getD 0 default).position
          + (((updatePhysics Gconst dtConst [bodyA]).getD 0 default).velocity).smul
              dtConst) := by
  have hm : ∀ b ∈ ([bodyA] : List Body), 0 < b.mass := by
    intro b hb
    simp only [List.mem_singleton] at hb
    subst hb
    norm_num [bodyA]
  exact ⟨hm, by decide, C2_velocity_then_position Gconst dtConst [bodyA] hm 0 (by decide)⟩

/-- C3: the totalForce the loop accumulates for body i equals the sum stated
by the spec, over every other index, of
(G * mass(a) * mass(b) / distanceSq) * (diff / |diff|) restricted to pairs
with distanceSq at least 1; and the velocity gained in one step is that total
force divided by mass(a) and multiplied by dt. -/
theorem C3_force_formula (g dtv : ℝ) (bodies : List Body) (i : ℕ)
    (hi : i < bodies.length) :
    totalForce g bodies i (bodies.getD i default)
        = specForceSum g bodies i (bodies.getD i default)
      ∧ ((updatePhysics g dtv bodies).getD i default).velocity
        = (bodies.getD i default).velocity
          + ((specForceSum g bodies i (bodies.getD i default)).divScalar
              (bodies.getD i default).mass).smul dtv := by
  refine ⟨totalForce_eq_spec g bodies i _, ?_⟩
  rw [updatePhysics_getD g dtv bodies i hi, ← totalForce_eq_spec]
  rfl

/-- C3 witness: the force formula at a concrete two-body state. -/
theorem C3_witness :
    0 < ([bodyA, bodyB] : List Body).length
    ∧ (totalForce Gconst [bodyA, bodyB] 0 (([bodyA, bodyB] : List Body).getD 0 default)
        = specForceSum Gconst [bodyA, bodyB] 0
            (([bodyA, bodyB] : List Body).getD 0 default)
      ∧ ((updatePhysics Gconst dtConst [bodyA, bodyB]).getD 0 default).velocity
        = (([bodyA, bodyB] : List Body).getD 0 default).velocity
          + ((specForceSum Gconst [bodyA, bodyB] 0
                (([bodyA, bodyB] : List Body).getD 0 default)).divScalar
              (([bodyA, bodyB] : List Body).getD 0 default).mass).smul dtConst) :=
  ⟨by decide, C3_force_formula Gconst dtConst [bodyA, bodyB] 0 (by decide)⟩

/-- C4: a pair of bodies with squared separation below 1 (identical positions
included) contributes zero force in both directions; no division is reached
(the branch returns before normalize), and for the degenerate two-body system
a step leaves both velocities unchanged, so no value becomes infinite in this
real-valued embedding. -/
theorem C4_close_pair_zero (g dtv : ℝ) (a b : Body)
    (hclose : (b.position.sub a.position).lengthSq < 1) :
    pairForce g a b = 0 ∧ pairForce g b a = 0
    ∧ ((updatePhysics g dtv [a, b]).getD 0 default).velocity = a.velocity
    ∧ ((updatePhysics g dtv [a, b]).getD 1 default).velocity = b.velocity := by
  have h1 : pairForce g a b = 0 := by
    simp only [pairForce]
    rw [if_pos hclose]
  have h2 : pairForce g b a = 0 := by
    rw [pairForce_antisymm, h1, Vec3.neg_zero_eq]
  refine ⟨h1, h2, ?_, ?_⟩
  · rw [updatePhysics_getD g dtv [a, b] 0 (by norm_num)]
    show (([a, b] : List Body).getD 0 default).velocity
        + ((totalForce g [a, b] 0 (([a, b] : List Body).getD 0 default)).divScalar
            (([a, b] : List Body).getD 0 default).mass).smul dtv = a.velocity
    rw [show (([a, b] : List Body).getD 0 default) = a from rfl,
      totalForce_pair_left, h1]
    ext <;> simp
  · rw [updatePhysics_getD g dtv [a, b] 1 (by norm_num)]
    show (([a, b] : List Body).getD 1 default).velocity
        + ((totalForce g [a, b] 1 (([a, b] : List Body).getD 1 default)).divScalar
            (([a, b] : List Body).getD 1 default).mass).smul dtv = b.velocity
    rw [show (([a, b] : List Body).getD 1 default) = b from rfl,
      totalForce_pair_right, h2]
    ext <;> simp

/-- C4 witness: two copies of the same body at the same position. -/
theorem C4_witness :
    (bodyA.position.sub bodyA.position).lengthSq < 1
    ∧ (pairForce Gconst bodyA bodyA = 0 ∧ pairForce Gconst bodyA bodyA = 0
      ∧ ((updatePhysics Gconst dtConst [bodyA, bodyA]).getD 0 default).velocity
          = bodyA.velocity
      ∧ ((updatePhysics Gconst dtConst [bodyA, bodyA]).getD 1 default).velocity
          = bodyA.velocity) := by
  have hc : (bodyA.position.sub bodyA.position).lengthSq < 1 := by
    norm_num [bodyA, Vec3.sub, Vec3.lengthSq]
  exact ⟨hc, C4_close_pair_zero Gconst dtConst bodyA bodyA hc⟩

/-- C5: for k at most the capacity 800, a freshly initialized body has, after
exactly k steps, a trail read of exactly k positions, chronologically equal to
the positions it held at the end of steps 1 through k. -/
theorem C5_trail_roundtrip (g dtv : ℝ) (bodies : List Body) (i k : ℕ)
    (hi : i < bodies.length) (hk : k ≤ default_trail_length)
    (hfresh : (bodies.getD i default).trail = TrailBuffer.fresh 0) :
    (((stepN g dtv k bodies).getD i default).trail.read).length = k
    ∧ ((stepN g dtv k bodies).getD i default).trail.read
        = (List.range k).map
            (fun t => ((stepN g dtv (t + 1) bodies).getD i default).position) := by
  have heq : ((stepN g dtv k bodies).getD i default).trail.read
      = (List.range k).map
          (fun t => ((stepN g dtv (t + 1) bodies).getD i default).position) := by
    rw [stepN_trail g dtv bodies i hi k, hfresh,
      TrailBuffer.read_appendSeq_fresh _ _ k hk]
  refine ⟨?_, heq⟩
  rw [heq, List.length_map, List.length_range]

/-- C5 witness: two steps of a one-body system with a fresh trail. -/
theorem C5_witness :
    0 < ([bodyA] : List Body).length
    ∧ 2 ≤ default_trail_length
    ∧ (([bodyA] : List Body).getD 0 default).trail = TrailBuffer.fresh 0
    ∧ ((((stepN Gconst dtConst 2 [bodyA]).getD 0 default).trail.read).length = 2
      ∧ ((stepN Gconst dtConst 2 [bodyA]).getD 0 default).trail.read
        = (List.range 2).map
            (fun t => ((stepN Gconst dtConst (t + 1) [bodyA]).getD 0 default).position)) :=
  ⟨by decide, by decide, rfl,
    C5_trail_roundtrip Gconst dtConst [bodyA] 0 2 (by decide) (by decide) rfl⟩

/-- C6: after capacity + m steps (m positive), a freshly initialized body has
a trail read of exactly 800 positions; the reader starts at writeIndex and
wraps modulo the capacity, so the oldest returned position is the one recorded
at step m+1 and the newest the one recorded at step 800+m. -/
theorem C6_trail_wrap (g dtv : ℝ) (bodies : List Body) (i m : ℕ)
    (hi : i < bodies.length) (hm : 0 < m)
    (hfresh : (bodies.getD i default).trail = TrailBuffer.fresh 0) :
    (((stepN g dtv (default_trail_length + m) bodies).getD i default).trail.read).length
        = default_trail_length
    ∧ ((stepN g dtv (default_trail_length + m) bodies).getD i default).trail.read
        = (List.range default_trail_length).map
            (fun j => ((stepN g dtv (m + j + 1) bodies).getD i default).position) := by
  have heq : ((stepN g dtv (default_trail_length + m) bodies).getD i default).trail.read
      = (List.range default_trail_length).map
          (fun j => ((stepN g dtv (m + j + 1) bodies).getD i default).position) := by
    rw [stepN_trail g dtv bodies i hi _, hfresh,
      TrailBuffer.read_appendSeq_fresh_full]
  refine ⟨?_, heq⟩
  rw [heq, List.length_map, List.length_range]

/-- C6 witness: capacity + 1 steps of a one-body system with a fresh trail. -/
theorem C6_witness :
    0 < ([bodyA] : List Body).length
    ∧ 0 < 1
    ∧ (([bodyA] : List Body).getD 0 default).trail = TrailBuffer.fresh 0
    ∧ ((((stepN Gconst dtConst (default_trail_length + 1)
            [bodyA]).getD 0 default).trail.read).length = default_trail_length
      ∧ ((stepN Gconst dtConst (default_trail_length + 1)
            [bodyA]).getD 0 default).trail.read
        = (List.range default_trail_length).map
            (fun j => ((stepN Gconst dtConst (1 + j + 1)
                [bodyA]).getD 0 default).position)) :=
  ⟨by decide, by decide, rfl,
    C6_trail_wrap Gconst dtConst [bodyA] 0 1 (by decide) (by decide) rfl⟩

/-- C7: a created body starts with an empty trail (count 0, writeIndex 0); the
invariant count at most 800 and writeIndex below 800 is preserved by every
append; an append advances writeIndex modulo the capacity and increments the
count exactly while it is below the capacity; and each physics step appends
exactly one entry, the new position, to each body trail. -/
theorem C7_trail_invariant :
    (∀ (c : ControlsRow) (d : RandomDefaults),
        (createBody c d).trail.trailPointsCount = 0
        ∧ (createBody c d).trail.trailIndex = 0)
    ∧ (∀ (buf : TrailBuffer Vec3) (p : Vec3),
        buf.trailPointsCount ≤ default_trail_length →
        buf.trailIndex < default_trail_length →
          (buf.append p).trailPointsCount ≤ default_trail_length
          ∧ (buf.append p).trailIndex < default_trail_length)
    ∧ (∀ (buf : TrailBuffer Vec3) (p : Vec3),
        (buf.append p).trailIndex = (buf.trailIndex + 1) % default_trail_length
        ∧ (buf.trailPointsCount < default_trail_length →
            (buf.append p).trailPointsCount = buf.trailPointsCount + 1)
        ∧ (¬ buf.trailPointsCount < default_trail_length →
            (buf.append p).trailPointsCount = buf.trailPointsCount))
    ∧ (∀ (g dtv : ℝ) (bs : List Body) (i : ℕ), i < bs.length →
        ((updatePhysics g dtv bs).getD i default).trail
          = ((bs.getD i default).trail).append
              (((updatePhysics g dtv bs).getD i default).position)) := by
  refine ⟨fun c d => ⟨rfl, rfl⟩, ?_, ?_, ?_⟩
  · intro buf p hc hi
    constructor
    · show (if buf.trailPointsCount < default_trail_length then
          buf.trailPointsCount + 1 else buf.trailPointsCount) ≤ default_trail_length
      by_cases h : buf.trailPointsCount < default_trail_length
      · rw [if_pos h]
        omega
      · rw [if_neg h]
        exact hc
    · show (buf.trailIndex + 1) % default_trail_length < default_trail_length
      exact Nat.mod_lt _ (by norm_num [default_trail_length])
  · intro buf p
    refine ⟨rfl, ?_, ?_⟩
    · intro h
      show (if buf.trailPointsCount < default_trail_length then
          buf.trailPointsCount + 1 else buf.trailPointsCount) = buf.trailPointsCount + 1
      rw [if_pos h]
    · intro h
      show (if buf.trailPointsCount < default_trail_length then
          buf.trailPointsCount + 1 else buf.trailPointsCount) = buf.trailPointsCount
      rw [if_neg h]
  · intro g dtv bs i hi
    rw [updatePhysics_getD g dtv bs i hi]
    rfl

/-- C7 witness: the invariant parts at a fresh buffer, a sample control row,
and a concrete one-body step. -/
theorem C7_witness :
    ((createBody sampleControls sampleDefaults).trail.trailPointsCount = 0
      ∧ (createBody sampleControls sampleDefaults).trail.trailIndex = 0)
    ∧ (((TrailBuffer.fresh (0 : Vec3)).append 0).trailPointsCount ≤ default_trail_length
      ∧ ((TrailBuffer.fresh (0 : Vec3)).append 0).trailIndex < default_trail_length)
    ∧ (((TrailBuffer.fresh (0 : Vec3)).append 0).trailIndex
        = ((TrailBuffer.fresh (0 : Vec3)).trailIndex + 1) % default_trail_length)
    ∧ ((TrailBuffer.fresh (0 : Vec3)).trailPointsCount < default_trail_length
      ∧ ((TrailBuffer.fresh (0 : Vec3)).append 0).trailPointsCount
          = (TrailBuffer.fresh (0 : Vec3)).trailPointsCount + 1)
    ∧ (0 < ([bodyA] : List Body).length
      ∧ ((updatePhysics Gconst dtConst [bodyA]).getD 0 default).trail
        = (([bodyA] : List Body).getD 0 default).trail.append
            (((updatePhysics Gconst dtConst [bodyA]).getD 0 default).position)) :=
  ⟨C7_trail_invariant.1 sampleControls sampleDefaults,
    C7_trail_invariant.2.1 (TrailBuffer.fresh 0) 0 (by decide) (by decide),
    (C7_trail_invariant.2.2.1 (TrailBuffer.fresh 0) 0).1,
    ⟨by decide, (C7_trail_invariant.2.2.1 (TrailBuffer.fresh 0) 0).2.1 (by decide)⟩,
    ⟨by decide, C7_trail_invariant.2.2.2 Gconst dtConst [bodyA] 0 (by decide)⟩⟩

/-- C8 counterexample: the claim asserts the two positions are unchanged by
the single step; in fact the step moves the left body by its new velocity
times dt, so its position after one step differs from (-50, 0, 0). -/
theorem C8_counterexample :
    ¬ (((updatePhysics Gconst dtConst [bodyA, bodyB]).getD 0 default).position
        = bodyA.position) := by
  rw [twoBody_step_eval.2.2.1]
  intro h
  have hx := congrArg Vec3.x h
  norm_num [bodyA] at hx

/-- C8 amended: in the spec two-body scenario (masses 300 at (-50,0,0) and
(50,0,0), zero velocities, G = 9.8, dt = 0.1), one step gives velocities along
the x-axis pointing toward each other with the equal magnitude 147/5000
= 0.0294, and each position moves toward the other body by exactly
147/50000 = 0.00294 (newVelocity * dt); the positions are not unchanged. -/
theorem C8_two_body_scenario :
    (((updatePhysics Gconst dtConst [bodyA, bodyB]).getD 0 default).velocity
        = ⟨147 / 5000, 0, 0⟩)
    ∧ (((updatePhysics Gconst dtConst [bodyA, bodyB]).getD 1 default).velocity
        = ⟨-(147 / 5000), 0, 0⟩)
    ∧ (((updatePhysics Gconst dtConst [bodyA, bodyB]).getD 0 default).position
        = ⟨-50 + 147 / 50000, 0, 0⟩)
    ∧ (((updatePhysics Gconst dtConst [bodyA, bodyB]).getD 1 default).position
        = ⟨50 - 147 / 50000, 0, 0⟩) :=
  twoBody_step_eval

/-- C9: for a 3-body state with positive masses, one step conserves the total
momentum exactly in this real-valued embedding: the velocity phase adds
dt times the sum of all pair forces, which cancel in antisymmetric pairs, and
the position phase does not touch velocities or masses. -/
theorem C9_momentum_conserved (g dtv : ℝ) (bodies : List Body)
    (hlen : bodies.length = 3) (hm : ∀ b ∈ bodies, 0 < b.mass) :
    momentum (updatePhysics g dtv bodies) = momentum bodies :=
  momentum_updatePhysics g dtv bodies hm

/-- C9 witness: momentum conservation at a concrete three-body state. -/
theorem C9_witness :
    (([bodyA, bodyB, bodyC] : List Body).length = 3)
    ∧ (∀ b ∈ ([bodyA, bodyB, bodyC] : List Body), 0 < b.mass)
    ∧ momentum (updatePhysics Gconst dtConst [bodyA, bodyB, bodyC])
        = momentum [bodyA, bodyB, bodyC] := by
  have hm : ∀ b ∈ ([bodyA, bodyB, bodyC] : List Body), 0 < b.mass := by
    intro b hb
    simp only [List.mem_cons, List.not_mem_nil, or_false] at hb
    rcases hb with rfl | rfl | rfl <;> norm_num [bodyA, bodyB, bodyC]
  exact ⟨rfl, hm, C9_momentum_conserved Gconst dtConst [bodyA, bodyB, bodyC] rfl hm⟩

/-- C10: a mass control field parsing to NaN or 0 yields a body of the default
mass 300, and any other parsed value, negative values included, is used as the
body mass unchanged, with no error raised (createBody is total). -/
theorem C10_mass_defaulting (c : ControlsRow) (d : RandomDefaults) :
    (c.mass = JsNum.nan → (createBody c d).mass = default_mass)
    ∧ (c.mass = JsNum.num 0 → (createBody c d).mass = default_mass)
    ∧ (∀ x : ℝ, x ≠ 0 → c.mass = JsNum.num x → (createBody c d).mass = x) := by
  refine ⟨?_, ?_, ?_⟩
  · intro h
    show jsOr c.mass default_mass = default_mass
    rw [h]
    rfl
  · intro h
    show jsOr c.mass default_mass = default_mass
    rw [h]
    show (if (0 : ℝ) = 0 then default_mass else 0) = default_mass
    rw [if_pos rfl]
  · intro x hx h
    show jsOr c.mass default_mass = x
    rw [h]
    show (if x = 0 then default_mass else x) = x
    rw [if_neg hx]

/-- C10 witness: the control row whose mass parses to -5 yields mass -5. -/
theorem C10_witness :
    ((-5 : ℝ) ≠ 0) ∧ negControls.mass = JsNum.num (-5)
    ∧ (createBody negControls sampleDefaults).mass = -5 :=
  ⟨by norm_num, rfl,
    (C10_mass_defaulting negControls sampleDefaults).2.2 (-5) (by norm_num) rfl⟩
